import Mathlib

/-!
Verification development for the smart-voca vocabulary trainer.

The embedding models the spaced-repetition (SRS) statistics model, the
exam/wrong-note subsystem and the relevant controllers.  Timestamps are
modelled as seconds since an epoch (`Nat`); the source stores timestamps as
`%Y-%m-%d %H:%M:%S` strings whose lexicographic order agrees with the
chronological order, so `Nat` comparison is a faithful abstraction.  The
`strftime` call of the source with format `%Y-%m-%d 00:00:00` corresponds to truncating a
timestamp to the start of its day, and `%Y-%m-%d 23:59:59` to the last
second of the day.
-/

namespace SmartVoca

/-- Seconds in one day. -/
def secondsPerDay : Nat := 86400

/-- Truncate a timestamp to the first second of its day
(format `%Y-%m-%d 00:00:00` in the source). -/
def startOfDay (t : Nat) : Nat := t / secondsPerDay * secondsPerDay

/-- The last second of the day of `now`
(format `%Y-%m-%d 23:59:59` in the source). -/
def endOfToday (now : Nat) : Nat := startOfDay now + (secondsPerDay - 1)

/-! ## SRS configuration (models/statistics_model.py) -/

/-- The `SRS_INTERVALS` dict of the source: days until the next review,
keyed by mastery level. -/
def SRS_INTERVALS : Nat → Option Nat
  | 0 => some 1
  | 1 => some 3
  | 2 => some 7
  | 3 => some 14
  | 4 => some 30
  | 5 => some 365
  | _ => none

/-- Constant `MAX_MASTERY_LEVEL` of the source. -/
def MAX_MASTERY_LEVEL : Nat := 5

/-- Embedding of `StatisticsModel._calculate_next_review`: returns the new mastery level
and the next-review timestamp.  The source computes
`(datetime.now() + timedelta(days=interval)).strftime(...)` with format `%Y-%m-%d 00:00:00`,
i.e. the start of the day reached by adding the interval to `now`. -/
def calculate_next_review (current_level : Nat) (is_correct : Bool) (now : Nat) :
    Nat × Nat :=
  let new_level := if is_correct then min (current_level + 1) MAX_MASTERY_LEVEL else 0
  let interval := (SRS_INTERVALS new_level).getD 1
  let next_review_date := startOfDay (now + interval * secondsPerDay)
  (new_level, next_review_date)

/-- The interval table exactly as the specification states it:
`{0:1, 1:3, 2:7, 3:14, 4:30, 5:365}` days.  This is a spec-side definition,
used to compare the behaviour of the code against the words of the spec. -/
def specIntervalTable : Nat → Nat
  | 0 => 1
  | 1 => 3
  | 2 => 7
  | 3 => 14
  | 4 => 30
  | _ => 365

/-! ## Statistics rows and learning store -/

/-- One row of the `word_statistics` table. -/
structure StatsRow where
  stats_id : Nat
  word_id : Nat
  total_attempts : Nat
  correct_count : Nat
  last_review : Nat
  next_review : Nat
  mastery_level : Nat
deriving DecidableEq

/-- One row of the `learning_history` table.  `response_time` is stored
payload only (never computed with); it is modelled as a `Nat`. -/
structure HistoryRow where
  history_id : Nat
  session_id : Nat
  word_id : Nat
  is_correct : Nat
  response_time : Nat
  learning_date : Nat
deriving DecidableEq

/-- The part of the store touched by `record_word_result`:
the `learning_history` and `word_statistics` tables, with the next
auto-increment ids. -/
structure LearnStore where
  history : List HistoryRow
  next_history_id : Nat
  stats : List StatsRow
  next_stats_id : Nat
deriving DecidableEq

/-- Embedding of `LearningModel.add_history`: inserts one learning-history row via
`BaseModel.insert`, which returns the new row id, or `none` on a
persistence failure (`fail` injects such a failure). -/
def add_history (fail : Bool) (session_id word_id : Nat) (is_correct : Bool)
    (response_time : Nat) (now : Nat) (st : LearnStore) : LearnStore × Option Nat :=
  if fail then (st, none)
  else
    ({ st with
        history := st.history ++
          [⟨st.next_history_id, session_id, word_id, if is_correct then 1 else 0,
            response_time, now⟩],
        next_history_id := st.next_history_id + 1 },
      some st.next_history_id)

/-- Embedding of `StatisticsModel.update_statistics`: looks up the statistics row for the
word (`select_all(where_clause="word_id = ?")`); if absent, inserts a fresh
row for level 0; otherwise updates the first row found.  `wFail` injects a
persistence failure of the write statement (insert or update), in which case
the store is unchanged and `false` is returned. -/
def update_statistics (wFail : Bool) (word_id : Nat) (is_correct : Bool)
    (now : Nat) (st : LearnStore) : LearnStore × Bool :=
  match st.stats.filter (fun r => r.word_id == word_id) with
  | [] =>
    let nl_nr := calculate_next_review 0 is_correct now
    if wFail then (st, false)
    else
      ({ st with
          stats := st.stats ++
            [⟨st.next_stats_id, word_id, 1, if is_correct then 1 else 0,
              now, nl_nr.2, nl_nr.1⟩],
          next_stats_id := st.next_stats_id + 1 },
        true)
  | s :: _ =>
    let nl_nr := calculate_next_review s.mastery_level is_correct now
    if wFail then (st, false)
    else
      ({ st with
          stats := st.stats.map (fun r =>
            if r.stats_id == s.stats_id then
              { r with
                  total_attempts := r.total_attempts + 1,
                  correct_count := r.correct_count + (if is_correct then 1 else 0),
                  last_review := now,
                  next_review := nl_nr.2,
                  mastery_level := nl_nr.1 }
            else r) },
        true)

/-- Embedding of `LearningController.record_word_result`: appends one learning-history row
and then updates the word statistics; the two writes are independent calls
and the returned flag is true only when both succeeded. -/
def record_word_result (hFail sFail : Bool) (session_id word_id : Nat)
    (is_correct : Bool) (response_time : Nat) (now : Nat) (st : LearnStore) :
    LearnStore × Bool :=
  let r1 := add_history hFail session_id word_id is_correct response_time now st
  let history_success := r1.2.isSome
  let r2 := update_statistics sFail word_id is_correct now r1.1
  (r2.1, history_success && r2.2)

/-! ## Word table (models/word_model.py) -/

/-- One row of the `words` table (the columns the core subsystem reads). -/
structure Word where
  word_id : Nat
  word_text : String
  meaning_ko : String
  category : String
  is_deleted : Bool
  created_date : Nat
deriving DecidableEq

/-- Ordering used by `select_active_words` (`ORDER BY created_date ASC`). -/
def createdLe (a b : Word) : Prop := a.created_date ≤ b.created_date

instance : DecidableRel createdLe := fun a b => by unfold createdLe; infer_instance

instance : IsTotal Word createdLe where
  total a b := Nat.le_total a.created_date b.created_date

instance : IsTrans Word createdLe where
  trans _ _ _ h h' := Nat.le_trans h h'

/-- Embedding of `WordModel.select_active_words`: all rows with `is_deleted = 0`,
ordered by `created_date` ascending. -/
def select_active_words (words : List Word) : List Word :=
  (words.filter (fun w => !w.is_deleted)).insertionSort createdLe

/-- Embedding of `WordModel.select_by_category`: rows with `is_deleted = 0` and the given
category (no ORDER BY clause: table order kept). -/
def select_by_category (category : String) (words : List Word) : List Word :=
  words.filter (fun w => !w.is_deleted && w.category == category)

/-! ## Due-word selection (StatisticsModel.select_review_words) -/

/-- One row of the result of `select_review_words`
(`SELECT W.word_id, W.word_text, W.meaning_ko, S.mastery_level, S.next_review`). -/
structure ReviewRow where
  word_id : Nat
  word_text : String
  meaning_ko : String
  mastery_level : Nat
  next_review : Nat
deriving DecidableEq

/-- Ordering of `select_review_words` (`ORDER BY S.next_review ASC`). -/
def reviewLe (a b : ReviewRow) : Prop := a.next_review ≤ b.next_review

instance : DecidableRel reviewLe := fun a b => by unfold reviewLe; infer_instance

instance : IsTotal ReviewRow reviewLe where
  total a b := Nat.le_total a.next_review b.next_review

instance : IsTrans ReviewRow reviewLe where
  trans _ _ _ h h' := Nat.le_trans h h'

/-- The rows produced by the query of `select_review_words` before ordering:
`words INNER JOIN word_statistics` on `word_id`, restricted to
`W.is_deleted = 0 AND S.next_review <= endOfToday`. -/
def reviewJoin (todayEnd : Nat) (words : List Word) (stats : List StatsRow) :
    List ReviewRow :=
  words.flatMap (fun w =>
    if w.is_deleted then []
    else
      (stats.filter (fun s => s.word_id == w.word_id && decide (s.next_review ≤ todayEnd))).map
        (fun s => ⟨w.word_id, w.word_text, w.meaning_ko, s.mastery_level, s.next_review⟩))

/-- Embedding of `StatisticsModel.select_review_words`: words due at or before the end of
today, `ORDER BY next_review ASC`, `LIMIT limit`. -/
def select_review_words (limit : Nat) (now : Nat) (words : List Word)
    (stats : List StatsRow) : List ReviewRow :=
  let today := endOfToday now
  ((reviewJoin today words stats).insertionSort reviewLe).take limit

/-! ## Exam store (models/exam_model.py) -/

/-- One row of the `exam_history` table.  `score` is kept in tenths of a
percent (the source stores `round(x, 1)` of a 0-100 float; `score = 700`
means `70.0`). -/
structure ExamHistoryRow where
  exam_id : Nat
  exam_date : Nat
  exam_type : String
  total_questions : Nat
  score : Nat
  duration_sec : Nat
  is_deleted : Bool
deriving DecidableEq

/-- One row of the `exam_questions` table. -/
structure ExamQuestionRow where
  question_id : Nat
  exam_id : Nat
  word_id : Nat
  question_text : String
  correct_answer : String
  user_answer : String
  is_correct : Nat
deriving DecidableEq

/-- One row of the `wrong_note` table. -/
structure WrongNote where
  note_id : Nat
  word_id : Nat
  latest_exam_id : Nat
  wrong_count : Nat
  last_wrong_date : Nat
deriving DecidableEq

/-- One element of `questions_detail` as handed to `record_exam_result`
(the `is_correct` flag was filled upstream; the source compares it with the
integers 0 and 1). -/
structure QInput where
  word_id : Nat
  question_text : String
  correct_answer : String
  user_answer : String
  is_correct : Nat
deriving DecidableEq

/-- The tables touched by the exam-recording transaction, with next
auto-increment row ids. -/
structure ExamStore where
  exam_history : List ExamHistoryRow
  exam_questions : List ExamQuestionRow
  wrong_note : List WrongNote
  next_exam_id : Nat
  next_question_id : Nat
  next_note_id : Nat
deriving DecidableEq

/-- The SQLite connection state: the committed store plus, while an explicit
transaction is open (`isolation_level = None` and `BEGIN` executed), an
uncommitted overlay.  With no open transaction every statement autocommits. -/
structure DB where
  committed : ExamStore
  pending : Option ExamStore
deriving DecidableEq

/-- The store a statement reads/writes: the transaction overlay if a
transaction is open, else the committed store. -/
def DB.cur (db : DB) : ExamStore := db.pending.getD db.committed

/-- Apply a successful statement: inside a transaction it updates the
overlay, otherwise it autocommits. -/
def DB.applyCur (db : DB) (f : ExamStore → ExamStore) : DB :=
  match db.pending with
  | some s => { db with pending := some (f s) }
  | none => { db with committed := f db.committed }

/-- Model of `conn.rollback()` / `ROLLBACK`: discard the overlay (a no-op outside a
transaction).  `DBConnection.execute` performs this whenever a statement
raises `sqlite3.Error`, then returns `None` instead of propagating. -/
def DB.rollback (db : DB) : DB := { db with pending := none }

/-- Model of `conn.commit()`: publish the overlay (a no-op outside a transaction). -/
def DB.commitTxn (db : DB) : DB :=
  match db.pending with
  | some s => { committed := s, pending := none }
  | none => db

/-- Model of `BEGIN`: open an explicit transaction. -/
def DB.beginTxn (db : DB) : DB := { db with pending := some db.committed }

/-- Statement `INSERT INTO exam_history (...) VALUES (..., 0)` — the new row id is the
current `next_exam_id`. -/
def insertHistory (exam_type : String) (total_questions score duration_sec now : Nat)
    (s : ExamStore) : ExamStore :=
  { s with
      exam_history := s.exam_history ++
        [⟨s.next_exam_id, now, exam_type, total_questions, score, duration_sec, false⟩],
      next_exam_id := s.next_exam_id + 1 }

/-- Statement `INSERT INTO exam_questions (...)` for one question dict (the caller has
set the exam id key of `q`). -/
def insertQuestion (exam_id : Nat) (q : QInput) (s : ExamStore) : ExamStore :=
  { s with
      exam_questions := s.exam_questions ++
        [⟨s.next_question_id, exam_id, q.word_id, q.question_text,
          q.correct_answer, q.user_answer, q.is_correct⟩],
      next_question_id := s.next_question_id + 1 }

/-- Statement `INSERT INTO wrong_note (word_id, latest_exam_id, wrong_count, last_wrong_date)`
with `wrong_count = 1`. -/
def insertNote (word_id latest_exam_id now : Nat) (s : ExamStore) : ExamStore :=
  { s with
      wrong_note := s.wrong_note ++ [⟨s.next_note_id, word_id, latest_exam_id, 1, now⟩],
      next_note_id := s.next_note_id + 1 }

/-- The SET clause of the wrong-note UPDATE, applied to a row when the
`WHERE note_id = ?` clause matches. -/
def noteUpd (note_id latest_exam_id now : Nat) (n : WrongNote) : WrongNote :=
  if n.note_id == note_id then
    { n with
        wrong_count := n.wrong_count + 1,
        latest_exam_id := latest_exam_id,
        last_wrong_date := now }
  else n

/-- Statement `UPDATE wrong_note SET wrong_count = wrong_count + 1, latest_exam_id = ?,
last_wrong_date = ? WHERE note_id = ?`. -/
def updateNoteById (note_id latest_exam_id now : Nat) (s : ExamStore) : ExamStore :=
  { s with wrong_note := s.wrong_note.map (noteUpd note_id latest_exam_id now) }

/-- Embedding of `ExamModel._update_wrong_note`, executed inside the exam transaction.
`sched j = true` means the j-th SQL statement of the enclosing call raises a
storage error (which `DBConnection.execute` swallows after rolling back);
`k` is the index of the first statement of this call (the SELECT).  A failed
SELECT yields `row = None`, so the source falls into the insert branch.
The python function always returns `True`, so no flag is produced. -/
def update_wrong_note (word_id latest_exam_id now : Nat) (sched : Nat → Bool)
    (db : DB) (k : Nat) : DB × Nat :=
  let sel :=
    if sched k then (db.rollback, none)
    else (db, db.cur.wrong_note.find? (fun n => n.word_id == word_id))
  match sel.2 with
  | some n =>
    if sched (k + 1) then (sel.1.rollback, k + 2)
    else (sel.1.applyCur (updateNoteById n.note_id latest_exam_id now), k + 2)
  | none =>
    if sched (k + 1) then (sel.1.rollback, k + 2)
    else (sel.1.applyCur (insertNote word_id latest_exam_id now), k + 2)

/-- The per-question loop of `record_exam_result`: insert the question row
(the cursor result is not checked), then update the wrong note when the
question was answered incorrectly. -/
def recordLoop (exam_id now : Nat) (sched : Nat → Bool) :
    List QInput → DB × Nat → DB × Nat
  | [], acc => acc
  | q :: rest, acc =>
    let db1 := if sched acc.2 then acc.1.rollback
               else acc.1.applyCur (insertQuestion exam_id q)
    let nxt :=
      if q.is_correct == 0 then update_wrong_note q.word_id exam_id now sched db1 (acc.2 + 1)
      else (db1, acc.2 + 1)
    recordLoop exam_id now sched rest nxt

/-- Embedding of `ExamModel.record_exam_result`.  Statement 0 is `BEGIN`, statement 1 the
`exam_history` insert; the loop consumes the following indices.  A failing
history insert makes `DBConnection.execute` return `None`, so
`cursor.lastrowid` raises in the caller and the `except` branch rolls back
and returns `None`.  Failures of later statements are swallowed inside
`DBConnection.execute` (which rolls the transaction back) and the loop
continues, the remaining statements autocommitting. -/
def record_exam_result (exam_type : String) (total_questions score duration_sec : Nat)
    (questions_detail : List QInput) (now : Nat) (sched : Nat → Bool) (db0 : DB) :
    DB × Option Nat :=
  let db1 := if sched 0 then db0.rollback else db0.beginTxn
  if sched 1 then (db1.rollback, none)
  else
    let exam_id := db1.cur.next_exam_id
    let db2 := db1.applyCur (insertHistory exam_type total_questions score duration_sec now)
    if exam_id == 0 then (db2.rollback, none)
    else
      let res := recordLoop exam_id now sched questions_detail (db2, 2)
      (res.1.commitTxn, some exam_id)

/-! ## Exam controller (controllers/exam_controller.py) -/

/-- Round-half-to-even of the fraction `num / den` (for `den > 0`), the tie
tie rule of the python `round` builtin.  Scores are handled in tenths of a percent, so
`round((correct / total) * 100, 1)` becomes `roundTenths (correct * 1000) total`. -/
def roundTenths (num den : Nat) : Nat :=
  let q := num / den
  let r := num % den
  if 2 * r < den then q
  else if den < 2 * r then q + 1
  else if q % 2 = 0 then q else q + 1

/-- The summary dict returned by `submit_and_record_exam` (score in tenths
of a percent). -/
structure ExamSummary where
  exam_id : Nat
  score : Nat
  correct_count : Nat
  wrong_count : Nat
  total_questions : Nat
deriving DecidableEq

/-- Embedding of `ExamController.submit_and_record_exam`: reject an empty submission,
count the correctness flags, compute the rounded score, and delegate to
`record_exam_result`; a `None` exam id is propagated as failure. -/
def submit_and_record_exam (exam_type : String) (duration_sec : Nat)
    (questions_data : List QInput) (now : Nat) (sched : Nat → Bool) (db : DB) :
    DB × Option ExamSummary :=
  if questions_data.isEmpty then (db, none)
  else
    let correct_count := questions_data.countP (fun q => q.is_correct == 1)
    let wrong_count := questions_data.countP (fun q => !(q.is_correct == 1))
    let total_questions := questions_data.length
    let score := if 0 < total_questions then roundTenths (correct_count * 1000) total_questions
                 else 0
    let res := record_exam_result exam_type total_questions score duration_sec
        questions_data now sched db
    match res.2 with
    | some exam_id =>
      (res.1, some ⟨exam_id, score, correct_count, wrong_count, total_questions⟩)
    | none => (res.1, none)

/-! ## Wrong-note review selection (ExamModel.select_wrong_words_for_review) -/

/-- One row of the result of `select_wrong_words_for_review`. -/
structure WrongReviewRow where
  word_id : Nat
  word_text : String
  meaning_ko : String
  wrong_count : Nat
  last_wrong_date : Nat
deriving DecidableEq

/-- Ordering of `select_wrong_words_for_review`
(`ORDER BY N.wrong_count DESC, N.last_wrong_date ASC`). -/
def wrongLe (a b : WrongReviewRow) : Prop :=
  b.wrong_count < a.wrong_count ∨
    (a.wrong_count = b.wrong_count ∧ a.last_wrong_date ≤ b.last_wrong_date)

instance : DecidableRel wrongLe := fun a b => by unfold wrongLe; infer_instance

instance : IsTotal WrongReviewRow wrongLe where
  total a b := by
    unfold wrongLe
    rcases Nat.lt_trichotomy a.wrong_count b.wrong_count with h | h | h
    · right; left; exact h
    · rcases Nat.le_total a.last_wrong_date b.last_wrong_date with hd | hd
      · left; right; exact ⟨h, hd⟩
      · right; right; exact ⟨h.symm, hd⟩
    · left; left; exact h

instance : IsTrans WrongReviewRow wrongLe where
  trans a b c hab hbc := by
    unfold wrongLe at *
    rcases hab with h | ⟨h1, h2⟩ <;> rcases hbc with h' | ⟨h1', h2'⟩
    · left; omega
    · left; omega
    · left; omega
    · right; exact ⟨h1.trans h1', h2.trans h2'⟩

/-- The rows of `words INNER JOIN wrong_note` with `W.is_deleted = 0`. -/
def wrongJoin (words : List Word) (notes : List WrongNote) : List WrongReviewRow :=
  words.flatMap (fun w =>
    if w.is_deleted then []
    else
      (notes.filter (fun n => n.word_id == w.word_id)).map
        (fun n => ⟨w.word_id, w.word_text, w.meaning_ko, n.wrong_count, n.last_wrong_date⟩))

/-- Embedding of `ExamModel.select_wrong_words_for_review`: ordered by wrong count
descending then last-wrong date ascending; `LIMIT` only when a limit is
given. -/
def select_wrong_words_for_review (limit : Option Nat) (words : List Word)
    (notes : List WrongNote) : List WrongReviewRow :=
  let sorted := (wrongJoin words notes).insertionSort wrongLe
  match limit with
  | some n => sorted.take n
  | none => sorted

/-- A word-shaped result row of `generate_exam_words`: the python function
returns wrong-note dicts in one branch and word dicts in the other. -/
inductive ExamWordRow where
  | wrongNoteWord (r : WrongReviewRow)
  | storeWord (w : Word)
deriving DecidableEq

/-- Python truthiness of the optional `category` argument (`if category:`;
an empty string is falsy). -/
def optTruthy : Option String → Bool
  | none => false
  | some s => !(s == "")

/-- Embedding of `ExamController._get_candidate_words`. -/
def get_candidate_words (category : Option String) (words : List Word) : List Word :=
  if optTruthy category then select_by_category (category.getD ("")) words
  else select_active_words words

/-- Embedding of `ExamController.generate_exam_words`.  The random shuffle is injected as
a function parameter. -/
def generate_exam_words (question_count : Nat) (mode : String)
    (category : Option String) (shuffle : List Word → List Word)
    (words : List Word) (notes : List WrongNote) : List ExamWordRow :=
  if mode == "wrong_note" then
    (select_wrong_words_for_review (some question_count) words notes).map
      ExamWordRow.wrongNoteWord
  else
    let all_words := get_candidate_words category words
    let qc := if all_words.length < question_count then all_words.length
              else question_count
    ((shuffle all_words).take qc).map ExamWordRow.storeWord

/-! ## Helper notions for the wrong-note ledger -/

/-- The first wrong-note entry for a word (how the
`SELECT ... WHERE word_id = ?` with `fetchone` reads it). -/
def noteFor (word_id : Nat) (notes : List WrongNote) : Option WrongNote :=
  notes.find? (fun n => n.word_id == word_id)

/-- The recorded wrong count for a word (0 when no entry exists). -/
def wrongCountOf (word_id : Nat) (notes : List WrongNote) : Nat :=
  ((noteFor word_id notes).map (fun n => n.wrong_count)).getD 0

/-- Number of wrong-note entries for a word. -/
def entriesFor (word_id : Nat) (notes : List WrongNote) : Nat :=
  notes.countP (fun n => n.word_id == word_id)

/-! ## Concrete instances used to evaluate the model -/

/-- A failure schedule on which every SQL statement succeeds. -/
def schedNone : Nat → Bool := fun _ => false

/-- A fresh connection over empty exam tables. -/
def dbEmpty : DB := ⟨⟨[], [], [], 1, 1, 1⟩, none⟩

/-- A schedule on which exactly statement 2 — the first `exam_questions`
insert of `record_exam_result` — raises a storage error. -/
def examFailSched : Nat → Bool := fun k => k == 2

/-- Two incorrectly-answered questions submitted for recording. -/
def failQs : List QInput :=
  [⟨11, "q1", "a", "x", 0⟩, ⟨12, "q2", "b", "y", 0⟩]

/-- Recording those two questions on `examFailSched`: the first question
insert fails mid-transaction. -/
def failRun : DB × Option Nat :=
  record_exam_result ("word_to_meaning") 2 0 10 failQs 0 examFailSched dbEmpty

/-- A store whose statistics table has one row for word 7 at level 2. -/
def stW2 : LearnStore := ⟨[], 1, [⟨1, 7, 3, 2, 0, 0, 2⟩], 2⟩

/-- The statistics row of `stW2`. -/
def sW2 : StatsRow := ⟨1, 7, 3, 2, 0, 0, 2⟩

/-- The statistics row of `stW2` after a correct answer at `now = 45296`:
level 3, next review at the start of day 14. -/
def rW2 : StatsRow := ⟨1, 7, 4, 3, 45296, 1209600, 3⟩

/-- Ten questions, seven answered correctly. -/
def qs10 : List QInput :=
  [⟨1, "q", "a", "a", 1⟩, ⟨2, "q", "a", "a", 1⟩, ⟨3, "q", "a", "a", 1⟩,
   ⟨4, "q", "a", "a", 1⟩, ⟨5, "q", "a", "a", 1⟩, ⟨6, "q", "a", "a", 1⟩,
   ⟨7, "q", "a", "a", 1⟩, ⟨8, "q", "a", "b", 0⟩, ⟨9, "q", "a", "b", 0⟩,
   ⟨10, "q", "a", "b", 0⟩]

/-- The summary produced for `qs10` on a fresh store: exam 1, score 70.0
(700 tenths), 7 correct, 3 wrong, 10 questions. -/
def summary10 : ExamSummary := ⟨1, 700, 7, 3, 10⟩

/-- A connection whose committed store holds one wrong-note entry for
word 7 with `wrong_count = 2`. -/
def dbW6 : DB := ⟨⟨[], [], [⟨1, 7, 9, 2, 100⟩], 1, 1, 2⟩, none⟩

/-- Two words, the second soft-deleted. -/
def wordsW7 : List Word :=
  [⟨1, "apple", "sagwa", "noun", false, 10⟩, ⟨2, "pear", "bae", "noun", true, 20⟩]

/-- Statistics rows for both words, due well before the end of day 1. -/
def statsW7 : List StatsRow := [⟨1, 1, 2, 1, 0, 50000, 1⟩, ⟨2, 2, 1, 0, 0, 10, 0⟩]

/-- Two active words for the wrong-note ordering witness. -/
def wordsW8 : List Word :=
  [⟨1, "apple", "sagwa", "noun", false, 10⟩, ⟨2, "pear", "bae", "noun", false, 20⟩]

/-- Wrong-note entries: word 1 missed twice, word 2 missed five times. -/
def notesW8 : List WrongNote := [⟨1, 1, 1, 2, 50⟩, ⟨2, 2, 1, 5, 60⟩]

/-- Reading the current store through `applyCur` applies the statement. -/
theorem DB.cur_applyCur (db : DB) (f : ExamStore → ExamStore) :
    (db.applyCur f).cur = f db.cur := by
  cases db with
  | mk committed pending => cases pending <;> rfl

/-- The `find?` function commutes with a map that preserves the predicate. -/
theorem find?_map_of_pred_preserved {α : Type} (f : α → α) (p : α → Bool)
    (hp : ∀ x, p (f x) = p x) : ∀ l : List α, (l.map f).find? p = (l.find? p).map f := by
  intro l
  induction l with
  | nil => rfl
  | cons a t ih =>
    cases hpa : p a with
    | true =>
      rw [List.map_cons, List.find?_cons_of_pos _ (by rw [hp a]; exact hpa),
        List.find?_cons_of_pos _ hpa]
      rfl
    | false =>
      rw [List.map_cons, List.find?_cons_of_neg _ (by simp [hp a, hpa]),
        List.find?_cons_of_neg _ (by simp [hpa])]
      exact ih

/-! ## Theorems -/

/-- For every attainable new level the interval lookup of the code agrees with the
interval table written in the specification. -/
theorem srs_get_eq_spec {l : Nat} (h : l ≤ 5) :
    (SRS_INTERVALS l).getD 1 = specIntervalTable l := by
  interval_cases l <;> rfl

/-- C1 (counterexample): the claim says the next-review timestamp equals
`now` plus the interval, carrying the full time-of-day.  At
`now = 45296` (12:34:56 of day 0) a correct first answer yields level 1
(interval 3 days), but the computed next review is the start of day 3
(259200), not `45296 + 3 days = 304496`: the code normalizes to
start-of-day. -/
theorem calculate_next_review_not_full_timestamp :
    (calculate_next_review 0 true 45296).2 ≠
      45296 + specIntervalTable (calculate_next_review 0 true 45296).1 * secondsPerDay := by
  decide

/-- C1 (amended): for every level transition the next-review timestamp is
the START OF DAY of `now` plus the fixed interval for the new level, per the
table `{0:1, 1:3, 2:7, 3:14, 4:30, 5:365}` days; the time-of-day of `now` is
normalized away, not carried. -/
theorem calculate_next_review_start_of_day (current_level : Nat) (is_correct : Bool)
    (now : Nat) :
    (calculate_next_review current_level is_correct now).2 =
      startOfDay (now +
        specIntervalTable (calculate_next_review current_level is_correct now).1 *
          secondsPerDay) := by
  cases is_correct with
  | false => rfl
  | true =>
    show startOfDay (now + (SRS_INTERVALS (min (current_level + 1) MAX_MASTERY_LEVEL)).getD 1 *
        secondsPerDay) = _
    rw [srs_get_eq_spec (l := min (current_level + 1) MAX_MASTERY_LEVEL)
      (Nat.min_le_right _ _)]
    rfl

/-- C2: recording an outcome for a word with an existing statistics row of
prior level `L` resets the stored mastery level to 0 on an incorrect answer
and sets it to `min (L + 1) 5` on a correct one; the stored level never
exceeds 5. -/
theorem update_statistics_level_transition (st : LearnStore) (word_id : Nat)
    (is_correct : Bool) (now : Nat) (s : StatsRow) (rest : List StatsRow)
    (h : st.stats.filter (fun r => r.word_id == word_id) = s :: rest) :
    ∀ r ∈ (update_statistics false word_id is_correct now st).1.stats,
      r.stats_id = s.stats_id →
        r.mastery_level = (if is_correct then min (s.mastery_level + 1) 5 else 0) ∧
        r.mastery_level ≤ 5 := by
  intro r hr hid
  unfold update_statistics at hr
  rw [h] at hr
  simp only [if_neg (Bool.false_ne_true)] at hr
  rcases List.mem_map.mp hr with ⟨r0, _, rfl⟩
  by_cases hb : (r0.stats_id == s.stats_id) = true
  · rw [if_pos hb]
    refine ⟨?_, ?_⟩
    · cases is_correct <;> rfl
    · cases is_correct <;> simp [calculate_next_review, MAX_MASTERY_LEVEL]
  · rw [if_neg hb] at hid
    exact absurd (beq_iff_eq.mpr hid) hb

/-- C4: grading an empty submission is rejected up front: no store access
happens, the connection state is unchanged, and `None` is returned. -/
theorem submit_and_record_exam_empty_noop (exam_type : String) (duration_sec now : Nat)
    (sched : Nat → Bool) (db : DB) :
    submit_and_record_exam exam_type duration_sec [] now sched db = (db, none) := rfl

/-- A failed statistics write leaves the store untouched. -/
theorem update_statistics_fail_state (word_id : Nat) (is_correct : Bool) (now : Nat)
    (st : LearnStore) : (update_statistics true word_id is_correct now st).1 = st := by
  unfold update_statistics
  split <;> rfl

/-- C9: `record_word_result` performs two independent writes.  (i) It reports
success exactly when both the history insert and the statistics update
report success; (ii) when the history write fails the statistics update is
still applied to the untouched store; (iii) when the statistics update fails
the already-written history row stays (no rollback of either write). -/
theorem record_word_result_independent_writes (session_id word_id : Nat)
    (is_correct : Bool) (response_time now : Nat) (st : LearnStore) :
    (∀ hFail sFail : Bool,
      (record_word_result hFail sFail session_id word_id is_correct response_time now st).2 =
          true ↔
        (add_history hFail session_id word_id is_correct response_time now st).2.isSome =
            true ∧
          (update_statistics sFail word_id is_correct now
            (add_history hFail session_id word_id is_correct response_time now st).1).2 =
            true) ∧
    ((record_word_result true false session_id word_id is_correct response_time now st).1 =
      (update_statistics false word_id is_correct now st).1) ∧
    ((record_word_result false true session_id word_id is_correct response_time now st).1 =
      (add_history false session_id word_id is_correct response_time now st).1) ∧
    ((record_word_result false true session_id word_id is_correct response_time now st).1.history =
      st.history ++
        [⟨st.next_history_id, session_id, word_id, if is_correct then 1 else 0,
          response_time, now⟩]) := by
  refine ⟨fun hFail sFail => ?_, ?_, ?_, ?_⟩
  · simp [record_word_result, Bool.and_eq_true]
  · rfl
  · simp [record_word_result, update_statistics_fail_state]
  · simp [record_word_result, update_statistics_fail_state, add_history]

/-- C10: in `generate_exam_words` the `wrong_note` mode ignores the category
argument entirely: for a fixed store and count, calls differing only in the
category return identical lists. -/
theorem generate_exam_words_wrong_note_category_independent (question_count : Nat)
    (cat1 cat2 : Option String) (shuffle : List Word → List Word)
    (words : List Word) (notes : List WrongNote) :
    generate_exam_words question_count ("wrong_note") cat1 shuffle words notes =
      generate_exam_words question_count ("wrong_note") cat2 shuffle words notes := rfl

/-- The function `noteUpd` never changes which word a row belongs to. -/
theorem noteUpd_word_beq (note_id latest_exam_id now w : Nat) (x : WrongNote) :
    ((noteUpd note_id latest_exam_id now x).word_id == w) = (x.word_id == w) := by
  unfold noteUpd
  by_cases hx : (x.note_id == note_id) = true <;> simp [hx]

/-- C2 witness at a concrete store: word 7 at level 2, answered correctly. -/
theorem update_statistics_level_transition_witness :
    (stW2.stats.filter (fun r => r.word_id == 7) = sW2 :: []) ∧
    (rW2.mastery_level = (if true then min (sW2.mastery_level + 1) 5 else 0) ∧
      rW2.mastery_level ≤ 5) :=
  ⟨rfl, update_statistics_level_transition stW2 7 true 45296 sW2 [] rfl rW2
    (by decide) rfl⟩

/-- C6: a successful `_update_wrong_note` call increments the wrong count of
the word by exactly one (first miss included: 0 becomes 1), overwrites
`latest_exam_id`/`last_wrong_date` of the entry of the word, and keeps the
at-most-one-entry-per-word invariant. -/
theorem update_wrong_note_spec (word_id latest_exam_id now : Nat)
    (sched : Nat → Bool) (db : DB) (k : Nat)
    (h1 : sched k = false) (h2 : sched (k + 1) = false) :
    wrongCountOf word_id
        ((update_wrong_note word_id latest_exam_id now sched db k).1.cur.wrong_note) =
      wrongCountOf word_id db.cur.wrong_note + 1 ∧
    ((noteFor word_id
          ((update_wrong_note word_id latest_exam_id now sched db k).1.cur.wrong_note)).map
        (fun n => (n.latest_exam_id, n.last_wrong_date))) = some (latest_exam_id, now) ∧
    (∀ w, entriesFor w db.cur.wrong_note ≤ 1 →
      entriesFor w
          ((update_wrong_note word_id latest_exam_id now sched db k).1.cur.wrong_note) ≤ 1) := by
  have hred : update_wrong_note word_id latest_exam_id now sched db k =
      match db.cur.wrong_note.find? (fun n => n.word_id == word_id) with
      | some n0 => (db.applyCur (updateNoteById n0.note_id latest_exam_id now), k + 2)
      | none => (db.applyCur (insertNote word_id latest_exam_id now), k + 2) := by
    unfold update_wrong_note
    rw [h1, h2]
    simp only [Bool.false_eq_true, if_false]
  rw [hred]
  cases hfind : db.cur.wrong_note.find? (fun n => n.word_id == word_id) with
  | some n0 =>
    rw [DB.cur_applyCur]
    have hfm : ((updateNoteById n0.note_id latest_exam_id now db.cur).wrong_note).find?
        (fun n => n.word_id == word_id) =
        some (noteUpd n0.note_id latest_exam_id now n0) := by
      unfold updateNoteById
      rw [find?_map_of_pred_preserved _ _
        (fun x => noteUpd_word_beq n0.note_id latest_exam_id now word_id x), hfind]
      rfl
    have hupd : noteUpd n0.note_id latest_exam_id now n0 =
        { n0 with
            wrong_count := n0.wrong_count + 1,
            latest_exam_id := latest_exam_id,
            last_wrong_date := now } := by
      unfold noteUpd
      simp
    refine ⟨?_, ?_, ?_⟩
    · unfold wrongCountOf noteFor
      rw [hfm, hfind, hupd]
      rfl
    · unfold noteFor
      rw [hfm, hupd]
      rfl
    · intro w hw
      unfold entriesFor at hw ⊢
      unfold updateNoteById
      rw [List.countP_map]
      have hcnt : db.cur.wrong_note.countP
            ((fun n => n.word_id == w) ∘ noteUpd n0.note_id latest_exam_id now) =
          db.cur.wrong_note.countP (fun n => n.word_id == w) :=
        List.countP_congr (fun x _ => by
          simp [Function.comp, noteUpd_word_beq])
      rw [hcnt]
      exact hw
  | none =>
    rw [DB.cur_applyCur]
    have hall : ∀ x ∈ db.cur.wrong_note, ((x.word_id == word_id) : Bool) = false := by
      intro x hx
      have hnx := List.find?_eq_none.mp hfind x hx
      simpa using hnx
    have hone : ([(⟨db.cur.next_note_id, word_id, latest_exam_id, 1, now⟩ : WrongNote)].find?
        (fun n => n.word_id == word_id)) =
        some ⟨db.cur.next_note_id, word_id, latest_exam_id, 1, now⟩ :=
      List.find?_cons_of_pos _ (by simp)
    refine ⟨?_, ?_, ?_⟩
    · unfold wrongCountOf noteFor insertNote
      rw [List.find?_append, hfind, hone]
      rfl
    · unfold noteFor insertNote
      rw [List.find?_append, hfind, hone]
      rfl
    · intro w hw
      unfold entriesFor at hw ⊢
      unfold insertNote
      rw [List.countP_append]
      by_cases hww : (word_id == w) = true
      · have hwe : word_id = w := by simpa using hww
        have h0 : db.cur.wrong_note.countP (fun n => n.word_id == w) = 0 := by
          apply List.countP_eq_zero.mpr
          intro a ha
          rw [← hwe]
          simp [hall a ha]
        rw [h0]
        simp [hww]
      · have h1 : List.countP (fun n => n.word_id == w)
            [(⟨db.cur.next_note_id, word_id, latest_exam_id, 1, now⟩ : WrongNote)] = 0 := by
          simp [hww]
        rw [h1]
        simpa using hw

/-- C6 witness: a store holding one entry for word 7 with count 2; a
successful miss record moves it to count 3 and overwrites the exam id and
date. -/
theorem update_wrong_note_spec_witness :
    (schedNone 3 = false) ∧
    wrongCountOf 7 ((update_wrong_note 7 5 999 schedNone dbW6 3).1.cur.wrong_note) =
      wrongCountOf 7 dbW6.cur.wrong_note + 1 ∧
    ((noteFor 7 ((update_wrong_note 7 5 999 schedNone dbW6 3).1.cur.wrong_note)).map
      (fun n => (n.latest_exam_id, n.last_wrong_date))) = some (5, 999) :=
  ⟨rfl, (update_wrong_note_spec 7 5 999 schedNone dbW6 3 rfl rfl).1,
    (update_wrong_note_spec 7 5 999 schedNone dbW6 3 rfl rfl).2.1⟩

/-- Membership in the due-word join: every produced row is due, stems from a
non-deleted word, and from an existing statistics row. -/
theorem mem_reviewJoin {r : ReviewRow} {te : Nat} {words : List Word}
    {stats : List StatsRow} (hr : r ∈ reviewJoin te words stats) :
    r.next_review ≤ te ∧
    (∃ w ∈ words, w.is_deleted = false ∧ w.word_id = r.word_id) ∧
    (∃ s ∈ stats, s.word_id = r.word_id ∧ s.next_review = r.next_review) := by
  rcases List.mem_flatMap.mp hr with ⟨w, hw, hrw⟩
  by_cases hd : w.is_deleted = true
  · rw [if_pos hd] at hrw
    simp at hrw
  · rw [if_neg hd] at hrw
    rcases List.mem_map.mp hrw with ⟨s, hs, rfl⟩
    rcases List.mem_filter.mp hs with ⟨hsmem, hcond⟩
    rw [Bool.and_eq_true] at hcond
    exact ⟨of_decide_eq_true hcond.2, ⟨w, hw, by simpa using hd, rfl⟩,
      ⟨s, hsmem, by simpa using hcond.1, rfl⟩⟩

/-- C7: `select_review_words` returns at most `limit` rows; every returned
row is due at or before the end of today, comes from a non-soft-deleted word
and from an existing mastery record; and the result is sorted by
`next_review` ascending. -/
theorem select_review_words_spec (limit now : Nat) (words : List Word)
    (stats : List StatsRow) :
    (select_review_words limit now words stats).length ≤ limit ∧
    (∀ r ∈ select_review_words limit now words stats,
      r.next_review ≤ endOfToday now ∧
      (∃ w ∈ words, w.is_deleted = false ∧ w.word_id = r.word_id) ∧
      (∃ s ∈ stats, s.word_id = r.word_id ∧ s.next_review = r.next_review)) ∧
    List.Pairwise reviewLe (select_review_words limit now words stats) := by
  unfold select_review_words
  refine ⟨List.length_take_le _ _, ?_, ?_⟩
  · intro r hr
    have hr2 : r ∈ (reviewJoin (endOfToday now) words stats).insertionSort reviewLe :=
      List.mem_of_mem_take hr
    rw [List.mem_insertionSort] at hr2
    exact mem_reviewJoin hr2
  · exact List.Pairwise.sublist (List.take_sublist _ _)
      (List.sorted_insertionSort reviewLe _)

/-- C7 witness: with one due active word and one soft-deleted word, the
query honours the limit and is sorted. -/
theorem select_review_words_spec_witness :
    (select_review_words 1 100000 wordsW7 statsW7).length ≤ 1 ∧
    List.Pairwise reviewLe (select_review_words 1 100000 wordsW7 statsW7) :=
  ⟨(select_review_words_spec 1 100000 wordsW7 statsW7).1,
    (select_review_words_spec 1 100000 wordsW7 statsW7).2.2⟩

/-- Membership in the wrong-note join: every row stems from a non-deleted
word. -/
theorem mem_wrongJoin {r : WrongReviewRow} {words : List Word} {notes : List WrongNote}
    (hr : r ∈ wrongJoin words notes) :
    ∃ w ∈ words, w.is_deleted = false ∧ w.word_id = r.word_id := by
  rcases List.mem_flatMap.mp hr with ⟨w, hw, hrw⟩
  by_cases hd : w.is_deleted = true
  · rw [if_pos hd] at hrw
    simp at hrw
  · rw [if_neg hd] at hrw
    rcases List.mem_map.mp hrw with ⟨n, _, rfl⟩
    exact ⟨w, hw, by simpa using hd, rfl⟩

/-- C8: `select_wrong_words_for_review` is ordered by wrong count descending
and, within equal counts, by last-wrong date ascending; soft-deleted words
are excluded; with no limit the whole join is returned (a permutation of
it). -/
theorem select_wrong_words_for_review_spec (limit : Option Nat) (words : List Word)
    (notes : List WrongNote) :
    List.Pairwise wrongLe (select_wrong_words_for_review limit words notes) ∧
    (∀ r ∈ select_wrong_words_for_review limit words notes,
      ∃ w ∈ words, w.is_deleted = false ∧ w.word_id = r.word_id) ∧
    (limit = none →
      (select_wrong_words_for_review limit words notes).Perm (wrongJoin words notes)) := by
  refine ⟨?_, ?_, ?_⟩
  · unfold select_wrong_words_for_review
    cases limit with
    | some n =>
      exact List.Pairwise.sublist (List.take_sublist _ _)
        (List.sorted_insertionSort wrongLe _)
    | none => exact List.sorted_insertionSort wrongLe _
  · intro r hr
    unfold select_wrong_words_for_review at hr
    have hr3 : r ∈ wrongJoin words notes := by
      cases limit with
      | some n =>
        have hr2 := List.mem_of_mem_take hr
        rwa [List.mem_insertionSort] at hr2
      | none => rwa [List.mem_insertionSort] at hr
    exact mem_wrongJoin hr3
  · intro hl
    subst hl
    exact List.perm_insertionSort wrongLe _

/-- C8 witness: the word missed 5 times precedes the word missed twice, and
with no limit the result is the full join. -/
theorem select_wrong_words_for_review_spec_witness :
    List.Pairwise wrongLe (select_wrong_words_for_review none wordsW8 notesW8) ∧
    (select_wrong_words_for_review none wordsW8 notesW8).Perm (wrongJoin wordsW8 notesW8) :=
  ⟨(select_wrong_words_for_review_spec none wordsW8 notesW8).1,
    (select_wrong_words_for_review_spec none wordsW8 notesW8).2.2 rfl⟩

/-- C5: whenever grading succeeds, the score of the summary is the half-even
rounding of `correct / total * 100` to one decimal (in tenths of a percent),
and its correct/wrong/total counts are exactly the counts of the input
correctness flags. -/
theorem submit_and_record_exam_summary (exam_type : String) (duration_sec : Nat)
    (questions_data : List QInput) (now : Nat) (sched : Nat → Bool) (db : DB)
    (summary : ExamSummary)
    (h : (submit_and_record_exam exam_type duration_sec questions_data now sched db).2 =
      some summary) :
    summary.score =
      roundTenths (questions_data.countP (fun q => q.is_correct == 1) * 1000)
        questions_data.length ∧
    summary.correct_count = questions_data.countP (fun q => q.is_correct == 1) ∧
    summary.wrong_count = questions_data.countP (fun q => !(q.is_correct == 1)) ∧
    summary.correct_count + summary.wrong_count = questions_data.length ∧
    summary.total_questions = questions_data.length := by
  unfold submit_and_record_exam at h
  by_cases he : questions_data.isEmpty = true
  · rw [if_pos he] at h
    cases h
  · rw [if_neg he] at h
    have hpos : 0 < questions_data.length := by
      rcases questions_data with _ | ⟨a, t⟩
      · exact absurd rfl he
      · simp
    simp only [hpos, if_true] at h
    cases hres : (record_exam_result exam_type questions_data.length
        (roundTenths (questions_data.countP (fun q => q.is_correct == 1) * 1000)
          questions_data.length)
        duration_sec questions_data now sched db).2 with
    | none =>
      rw [hres] at h
      cases h
    | some exam_id =>
      rw [hres] at h
      cases h
      refine ⟨rfl, rfl, rfl, ?_, rfl⟩
      have hlen := List.length_eq_countP_add_countP (l := questions_data)
        (fun q => q.is_correct == 1)
      simpa using hlen.symm

/-- C5 witness: 10 questions with 7 correct yield exactly score 70.0
(700 tenths), 7 correct, 3 wrong, 10 total. -/
theorem submit_and_record_exam_summary_witness :
    ((submit_and_record_exam ("meaning") 60 qs10 0 schedNone dbEmpty).2 = some summary10) ∧
    summary10.score =
      roundTenths (qs10.countP (fun q => q.is_correct == 1) * 1000) qs10.length ∧
    summary10.score = 700 ∧ summary10.correct_count = 7 ∧
    summary10.wrong_count = 3 ∧ summary10.total_questions = 10 := by
  have h : (submit_and_record_exam ("meaning") 60 qs10 0 schedNone dbEmpty).2 =
      some summary10 := by decide
  exact ⟨h, (submit_and_record_exam_summary ("meaning") 60 qs10 0 schedNone dbEmpty
    summary10 h).1, rfl, rfl, rfl, rfl⟩

/-- C3: the recording transaction is NOT all-or-nothing.  On `failQs` with a
storage error at the first question insert, the run still reports success
(`some 1`), the exam-history row is lost, yet the second question row and
both wrong-note rows are committed — partial rows survive and no failure is
signalled.  (`DBConnection.execute` swallows the `sqlite3.Error`, rolls the
transaction back itself, and the loop keeps going in autocommit mode.) -/
theorem record_exam_result_partial_commit_on_failure :
    failRun.2 = some 1 ∧
    failRun.1.committed.exam_history = [] ∧
    failRun.1.committed.exam_questions.length = 1 ∧
    failRun.1.committed.wrong_note.length = 2 := by
  decide

end SmartVoca
